import Mathlib

/-!
Shallow embedding of the Cloud Zoo issuer callback server (`app.py`).

The server keeps a `licenses` table in PostgreSQL and exposes three
authenticated endpoints:
  * `GET /get_license?key=&aud=`   — read-only lookup,
  * `POST /add_license`            — assign an available license to an entity,
  * `POST /remove_license`         — release licenses back to `available`.

The table is modelled as a `List LicenseRecord` (the `UNIQUE` constraint on
`license_key` becomes an explicit `Nodup` hypothesis where a proof needs it).
Each Flask handler becomes a pure function of the request, the store, and a
`dbFault` flag; `dbFault = true` means any database round-trip raises an
exception.  `add_license` and `remove_license` wrap their bodies in
`try/except` and map the exception to a 500 response; `get_license` has no
handler-level `try/except`, which the embedding records by returning
`Except.error ()` (the exception escapes to the framework).

Request-field validation in the Python code uses truthiness (`not all([...])`,
`if license_key:`), so request fields are modelled by a small JSON value type
with Python's truthiness.
-/

namespace CloudZoo

/-- A JSON scalar as it can appear in the request body ( `None` for JSON
`null`, strings, integers, booleans). -/
inductive JVal where
  | jnull
  | jstr (s : String)
  | jnum (n : Int)
  | jbool (b : Bool)
deriving DecidableEq, Repr

/-- Python truthiness of the modelled JSON scalars: `None`, `""`, `0` and
`False` are falsy, everything else is truthy. -/
def JVal.truthy : JVal → Bool
  | .jnull => false
  | .jstr s => !s.isEmpty
  | .jnum n => n != 0
  | .jbool b => b

/-- The text psycopg2 sends for a parameter when it is interpolated into a
query against a `VARCHAR` column. Only truthy values ever reach a query in
the handlers, so the rendering of `jnull` is irrelevant. -/
def JVal.render : JVal → String
  | .jnull => ""
  | .jstr s => s
  | .jnum n => toString n
  | .jbool b => if b then "true" else "false"

/-- Truthiness of `d.get(k)`: a missing field (`none`) is falsy. -/
def optTruthy : Option JVal → Bool
  | none => false
  | some v => v.truthy

/-- Truthiness of a query parameter (`request.args.get` yields `None` or a
string; `None` and `""` are falsy). -/
def strTruthy : Option String → Bool
  | none => false
  | some s => !s.isEmpty

/-- One row of the `licenses` table. `exp` is kept as epoch seconds (the
handlers only ever emit `int(expiration.timestamp())`); `editions` is kept as
the stored JSON text (the handlers emit `json.loads` of it). -/
structure LicenseRecord where
  license_key : String
  product_id : String
  status : String
  entity_id : Option String
  numberOfSeats : Int
  exp : Option Int
  editions : String
  date_created : Int
  date_assigned : Option Int
deriving DecidableEq, Repr

/-- The License wire object built by `get_license` and `add_license`:
`id`, `key`, `aud`, `iss`, `exp`, `numberOfSeats`, `editions`.  The
`editions` field carries the JSON text whose `json.loads` the handler
returns. -/
structure LicenseObj where
  id : String
  key : String
  aud : String
  iss : Option String
  exp : Option Int
  numberOfSeats : Int
  editions : String
deriving DecidableEq, Repr

/-- The JSON body of a response. `descr s` is `{"description": s}`. -/
inductive Body where
  | empty
  | descr (s : String)
  | licenseObj (l : LicenseObj)
  | licenseCluster (ls : List LicenseObj)
deriving DecidableEq, Repr

structure HttpResponse where
  status : Nat
  body : Body
deriving DecidableEq, Repr

/-- The row filter `WHERE license_key = %s AND product_id = %s`. -/
def matchesKeyProd (k a : String) (r : LicenseRecord) : Bool :=
  r.license_key == k && r.product_id == a

/-- The License object `get_license` builds from a fetched row. -/
def formatLicense (issuerId : Option String) (r : LicenseRecord) : LicenseObj :=
  { id := r.license_key, key := r.license_key, aud := r.product_id, iss := issuerId,
    exp := r.exp, numberOfSeats := r.numberOfSeats, editions := r.editions }

/-- `GET /get_license` (after authentication). Validates the two query
parameters, then does one `SELECT`.  There is no `try/except` in this
handler, so a raised database exception escapes: `Except.error ()`. -/
def get_license (issuerId : Option String) (key aud : Option String)
    (dbFault : Bool) (store : List LicenseRecord) : Except Unit HttpResponse :=
  if !(strTruthy key && strTruthy aud) then
    .ok ⟨400, .descr "Missing license key or product ID."⟩
  else if dbFault then
    .error ()
  else
    match store.find? (matchesKeyProd (key.getD "") (aud.getD "")) with
    | some r => .ok ⟨200, .licenseObj (formatLicense issuerId r)⟩
    | none => .ok ⟨404, .descr "License key not found for the specified product."⟩

/-- The parsed fields of an `add_license` request body:
`data["license"].get("key")`, `data["license"].get("aud")`,
`data.get("entityId")`. -/
structure AddRequest where
  key : Option JVal
  aud : Option JVal
  entityId : Option JVal
deriving DecidableEq, Repr

/-- Effect of `UPDATE licenses SET status = 'assigned', entity_id = %s,
date_assigned = NOW() WHERE license_key = %s` on a matching row. -/
def assignRec (entity : String) (now : Int) (r : LicenseRecord) : LicenseRecord :=
  { r with status := "assigned", entity_id := some entity, date_assigned := some now }

/-- `POST /add_license` (after authentication). The whole body is inside
`try/except`, so a database exception is caught and becomes a 500 with the
generic description; `now` is the time `NOW()` would store.  Note the
`SELECT` and the `UPDATE` are two separate statements and the `UPDATE` is
conditioned only on `license_key`; the success response is built from the
values fetched by the `SELECT`, not re-read after the `UPDATE`. -/
def add_license (issuerId : Option String) (data : Option AddRequest)
    (dbFault : Bool) (now : Int) (store : List LicenseRecord) :
    HttpResponse × List LicenseRecord :=
  match data with
  | none => (⟨400, .descr "Request body is missing"⟩, store)
  | some req =>
    if !(optTruthy req.key && optTruthy req.aud && optTruthy req.entityId) then
      (⟨400, .descr "Request is missing key data or entity ID."⟩, store)
    else if dbFault then
      (⟨500, .descr "An internal server error occurred."⟩, store)
    else
      let k := (req.key.getD .jnull).render
      let a := (req.aud.getD .jnull).render
      let e := (req.entityId.getD .jnull).render
      match store.find? (matchesKeyProd k a) with
      | none => (⟨409, .descr "The provided license key does not exist."⟩, store)
      | some r0 =>
        if r0.status != "available" then
          (⟨409, .descr "This license key is not available to be added."⟩, store)
        else
          (⟨200, .licenseCluster
              [⟨k, k, a, issuerId, r0.exp, r0.numberOfSeats, r0.editions⟩]⟩,
           store.map fun r => if r.license_key == k then assignRec e now r else r)

/-- One entry of the `licenses` list in a `remove_license` request body. -/
structure RemoveEntry where
  key : Option JVal
deriving DecidableEq, Repr

/-- The parsed `remove_license` request body:
`data["licenseCluster"].get("licenses", [])`. -/
structure RemoveRequest where
  licenses : List RemoveEntry
deriving DecidableEq, Repr

/-- Effect of `UPDATE licenses SET status = 'available', entity_id = NULL,
date_assigned = NULL WHERE license_key = %s` on a matching row. -/
def releaseRec (r : LicenseRecord) : LicenseRecord :=
  { r with status := "available", entity_id := none, date_assigned := none }

/-- The `UPDATE` for one key hits every row whose `license_key` matches. -/
def releaseKey (k : String) (store : List LicenseRecord) : List LicenseRecord :=
  store.map fun r => if r.license_key == k then releaseRec r else r

/-- One iteration of the `for license_info in licenses_to_remove:` loop:
entries whose `key` is missing or falsy are skipped. -/
def removeStep (store : List LicenseRecord) (e : RemoveEntry) : List LicenseRecord :=
  match e.key with
  | some v => if v.truthy then releaseKey v.render store else store
  | none => store

/-- `POST /remove_license` (after authentication). The whole body is inside
`try/except`, so a database exception is caught and becomes a 500. -/
def remove_license (data : Option RemoveRequest) (dbFault : Bool)
    (store : List LicenseRecord) : HttpResponse × List LicenseRecord :=
  match data with
  | none => (⟨400, .descr "Request body is missing"⟩, store)
  | some req =>
    if req.licenses.isEmpty then
      (⟨400, .descr "No licenses specified for removal."⟩, store)
    else if dbFault then
      (⟨500, .descr "An internal server error occurred."⟩, store)
    else
      (⟨200, .empty⟩, req.licenses.foldl removeStep store)

/-!
Interleaving model of `add_license`'s storage interaction.

`add_license` talks to the database in two separate statements: first the
`SELECT` of `status, "numberOfSeats", "exp", "editions"` (plus the two
validation checks on its result), then the unconditional
`UPDATE ... WHERE license_key = %s`.  Between the two statements another
request may run.  `AddProc` is the program counter of one in-flight
`add_license` request whose validation already passed; `addStep` executes
its next database statement.
-/

/-- Program counter of one in-flight `add_license` request: before the
`SELECT`, between the `SELECT` (whose fetched row it carries) and the
`UPDATE`, or finished with a response. -/
inductive AddProc where
  | preSelect
  | preUpdate (r0 : LicenseRecord)
  | finished (resp : HttpResponse)
deriving DecidableEq, Repr

/-- The parameters of one `add_license` call (validation already passed, so
all three are concrete strings). -/
structure AddCall where
  key : String
  aud : String
  entity : String
deriving DecidableEq, Repr

/-- Execute the next database statement of one `add_license` request.
`preSelect` performs the `SELECT` and the two checks on its result;
`preUpdate` performs the `UPDATE` and builds the success response from the
values the `SELECT` fetched. -/
def addStep (issuerId : Option String) (now : Int) (c : AddCall)
    (p : AddProc) (store : List LicenseRecord) : AddProc × List LicenseRecord :=
  match p with
  | .preSelect =>
    match store.find? (matchesKeyProd c.key c.aud) with
    | none => (.finished ⟨409, .descr "The provided license key does not exist."⟩, store)
    | some r0 =>
      if r0.status != "available" then
        (.finished ⟨409, .descr "This license key is not available to be added."⟩, store)
      else
        (.preUpdate r0, store)
  | .preUpdate r0 =>
    (.finished ⟨200, .licenseCluster
        [⟨c.key, c.key, c.aud, issuerId, r0.exp, r0.numberOfSeats, r0.editions⟩]⟩,
     store.map fun r => if r.license_key == c.key then assignRec c.entity now r else r)
  | .finished resp => (.finished resp, store)

/-- The shared store together with two concurrent `add_license` requests. -/
structure TwoAdds where
  store : List LicenseRecord
  p1 : AddProc
  p2 : AddProc
deriving DecidableEq, Repr

/-- Let the scheduled request (`true` = first, `false` = second) execute its
next database statement against the shared store. -/
def schedStep (issuerId : Option String) (now1 now2 : Int) (c1 c2 : AddCall)
    (s : TwoAdds) (who : Bool) : TwoAdds :=
  if who then
    let (p, st) := addStep issuerId now1 c1 s.p1 s.store
    ⟨st, p, s.p2⟩
  else
    let (p, st) := addStep issuerId now2 c2 s.p2 s.store
    ⟨st, s.p1, p⟩

/-- Run a schedule (list of which request moves next) on two concurrent
`add_license` requests. -/
def runSched (issuerId : Option String) (now1 now2 : Int) (c1 c2 : AddCall)
    (sched : List Bool) (s : TwoAdds) : TwoAdds :=
  sched.foldl (schedStep issuerId now1 now2 c1 c2) s

/-! ### Helper lemmas -/

/-- Two rows of a store whose `license_key` column is duplicate-free (the
schema's `UNIQUE` constraint) and which carry the same key are the same row. -/
theorem key_inj {store : List LicenseRecord}
    (hu : (store.map LicenseRecord.license_key).Nodup)
    {r1 r2 : LicenseRecord} (h1 : r1 ∈ store) (h2 : r2 ∈ store)
    (hk : r1.license_key = r2.license_key) : r1 = r2 :=
  List.inj_on_of_nodup_map hu h1 h2 hk

/-- `find?` commutes with a `map` whose function does not change whether the
predicate holds. -/
theorem find?_map_of_pred {α : Type} (p : α → Bool) (g : α → α)
    (h : ∀ x, p (g x) = p x) (l : List α) :
    (l.map g).find? p = (l.find? p).map g := by
  rw [List.find?_map]
  have hpg : p ∘ g = p := funext h
  rw [hpg]

theorem matches_iff {k a : String} {r : LicenseRecord} :
    matchesKeyProd k a r = true ↔ r.license_key = k ∧ r.product_id = a := by
  simp [matchesKeyProd]

theorem matches_assign (k a e : String) (now : Int) (r : LicenseRecord) :
    matchesKeyProd k a (assignRec e now r) = matchesKeyProd k a r := rfl

theorem matches_release (k a : String) (r : LicenseRecord) :
    matchesKeyProd k a (releaseRec r) = matchesKeyProd k a r := rfl

theorem map_eq_self_of_mem {α : Type} {l : List α} {f : α → α}
    (h : ∀ a ∈ l, f a = a) : l.map f = l := by
  induction l with
  | nil => rfl
  | cons x xs ih =>
    rw [List.map_cons, h x (List.mem_cons_self x xs),
      ih fun a ha => h a (List.mem_cons_of_mem x ha)]

theorem isEmpty_false {s : String} (h : s ≠ "") : s.isEmpty = false := by
  cases he : s.isEmpty
  · rfl
  · exact absurd ((String.isEmpty_iff s).mp he) h

theorem jstr_truthy {s : String} (h : s ≠ "") : (JVal.jstr s).truthy = true := by
  simp [JVal.truthy, isEmpty_false h]

theorem strTruthy_some {s : String} (h : s ≠ "") : strTruthy (some s) = true := by
  simp [strTruthy, isEmpty_false h]

/-- `add_license` with the three request fields present as non-empty strings,
reduced past request validation and the exception guard. -/
theorem add_license_strs (issuerId : Option String) (k a e : String) (now : Int)
    (store : List LicenseRecord) (hk : k ≠ "") (ha : a ≠ "") (he : e ≠ "") :
    add_license issuerId (some ⟨some (.jstr k), some (.jstr a), some (.jstr e)⟩)
        false now store
      = match store.find? (matchesKeyProd k a) with
        | none => (⟨409, .descr "The provided license key does not exist."⟩, store)
        | some r0 =>
          if r0.status != "available" then
            (⟨409, .descr "This license key is not available to be added."⟩, store)
          else
            (⟨200, .licenseCluster
                [⟨k, k, a, issuerId, r0.exp, r0.numberOfSeats, r0.editions⟩]⟩,
             store.map fun r => if r.license_key == k then assignRec e now r else r) := by
  unfold add_license
  simp [optTruthy, jstr_truthy, hk, ha, he, JVal.render]

/-- Whether one entry of a `remove_license` request targets a given row: its
`key` must be present, truthy, and equal to the row's `license_key`. -/
def entryHits (e : RemoveEntry) (r : LicenseRecord) : Bool :=
  match e.key with
  | some v => v.truthy && r.license_key == v.render
  | none => false

/-- The per-row effect of the whole `remove_license` update loop. -/
def elemRelease (es : List RemoveEntry) (r : LicenseRecord) : LicenseRecord :=
  if es.any (fun e => entryHits e r) then releaseRec r else r

theorem releaseRec_idem (r : LicenseRecord) : releaseRec (releaseRec r) = releaseRec r := rfl

theorem entryHits_release (e : RemoveEntry) (r : LicenseRecord) :
    entryHits e (releaseRec r) = entryHits e r := by
  cases he : e.key <;> simp [entryHits, he, releaseRec]

theorem removeStep_eq (store : List LicenseRecord) (e : RemoveEntry) :
    removeStep store e = store.map (fun r => if entryHits e r then releaseRec r else r) := by
  cases he : e.key with
  | none => simp [removeStep, entryHits, he]
  | some v =>
    by_cases hv : v.truthy <;>
      simp [removeStep, entryHits, he, hv, releaseKey]

theorem foldl_removeStep (es : List RemoveEntry) (store : List LicenseRecord) :
    es.foldl removeStep store = store.map (elemRelease es) := by
  induction es generalizing store with
  | nil => exact (List.map_id'' (fun r => by simp [elemRelease]) store).symm
  | cons e es ih =>
    rw [List.foldl_cons, removeStep_eq, ih, List.map_map]
    refine List.map_congr_left fun r _ => ?_
    by_cases he : entryHits e r
    · simp only [Function.comp_apply, he, if_pos]
      unfold elemRelease
      simp only [entryHits_release, List.any_cons, he, Bool.true_or, if_pos]
      split <;> rfl
    · simp only [Function.comp_apply, he, if_neg, Bool.false_eq_true, not_false_iff]
      unfold elemRelease
      simp [List.any_cons, he]

theorem elemRelease_idem (es : List RemoveEntry) (r : LicenseRecord) :
    elemRelease es (elemRelease es r) = elemRelease es r := by
  unfold elemRelease
  by_cases h : es.any (fun e => entryHits e r)
  · simp only [h, if_pos, entryHits_release, releaseRec_idem]
  · simp [h]

theorem matches_ite_assign (k a e : String) (now : Int) (r : LicenseRecord) :
    matchesKeyProd k a (if r.license_key == k then assignRec e now r else r)
      = matchesKeyProd k a r := by
  split <;> rfl

theorem matches_elemRelease (k a : String) (es : List RemoveEntry) (r : LicenseRecord) :
    matchesKeyProd k a (elemRelease es r) = matchesKeyProd k a r := by
  unfold elemRelease
  split <;> rfl

/-- The `entity_id`/`status` invariant of §3 of the spec. -/
def EntityInv (store : List LicenseRecord) : Prop :=
  ∀ r ∈ store, (r.entity_id ≠ none ↔ r.status = "assigned")

theorem entityInv_assign (store : List LicenseRecord) (hinv : EntityInv store)
    (k e : String) (now : Int) :
    EntityInv (store.map fun r => if r.license_key == k then assignRec e now r else r) := by
  intro r' hr'
  rw [List.mem_map] at hr'
  obtain ⟨r, hr, rfl⟩ := hr'
  by_cases h : r.license_key == k
  · simp [h, assignRec]
  · simp only [h, if_neg, Bool.false_eq_true, not_false_iff]
    exact hinv r hr

theorem entityInv_add (issuerId : Option String) (data : Option AddRequest)
    (dbFault : Bool) (now : Int) (store : List LicenseRecord) (hinv : EntityInv store) :
    EntityInv (add_license issuerId data dbFault now store).2 := by
  unfold add_license
  cases data with
  | none => exact hinv
  | some req =>
    dsimp only
    split
    · exact hinv
    · split
      · exact hinv
      · split
        · exact hinv
        · split
          · exact hinv
          · exact entityInv_assign store hinv _ _ now

theorem entityInv_removeStep (store : List LicenseRecord) (e : RemoveEntry)
    (hinv : EntityInv store) : EntityInv (removeStep store e) := by
  rw [removeStep_eq]
  intro r' hr'
  rw [List.mem_map] at hr'
  obtain ⟨r, hr, rfl⟩ := hr'
  by_cases h : entryHits e r
  · simp [h, releaseRec]
  · simp only [h, if_neg, Bool.false_eq_true, not_false_iff]
    exact hinv r hr

theorem entityInv_foldl (es : List RemoveEntry) (store : List LicenseRecord)
    (hinv : EntityInv store) : EntityInv (es.foldl removeStep store) := by
  induction es generalizing store with
  | nil => exact hinv
  | cons e es ih => exact ih _ (entityInv_removeStep _ _ hinv)

theorem entityInv_remove (data : Option RemoveRequest) (dbFault : Bool)
    (store : List LicenseRecord) (hinv : EntityInv store) :
    EntityInv (remove_license data dbFault store).2 := by
  unfold remove_license
  cases data with
  | none => exact hinv
  | some req =>
    dsimp only
    split
    · exact hinv
    · split
      · exact hinv
      · exact entityInv_foldl _ _ hinv

/-- The stores reachable from provisioning defaults (rows enter the table
with the schema defaults `status = 'available'`, `entity_id = NULL`) through
the mutating endpoints.  `get_license` is read-only — its type returns no
store — so it cannot change reachability. -/
inductive Reachable : List LicenseRecord → Prop
  | init (store : List LicenseRecord)
      (h : ∀ r ∈ store, r.status = "available" ∧ r.entity_id = none) :
      Reachable store
  | add (issuerId : Option String) (data : Option AddRequest) (dbFault : Bool)
      (now : Int) (store : List LicenseRecord) (h : Reachable store) :
      Reachable (add_license issuerId data dbFault now store).2
  | remove (data : Option RemoveRequest) (dbFault : Bool)
      (store : List LicenseRecord) (h : Reachable store) :
      Reachable (remove_license data dbFault store).2

/-! ### Concrete rows used by the witnesses -/

/-- An available row, as provisioning would create it. -/
def recAvail : LicenseRecord := ⟨"K1", "P1", "available", none, 1, none, "EDS", 0, none⟩

/-- A second available row with distinct business data. -/
def recAvail2 : LicenseRecord := ⟨"K2", "P2", "available", none, 3, some 1700000000, "EDS2", 4, none⟩

/-- An assigned row. -/
def recAssigned : LicenseRecord := ⟨"K3", "P3", "assigned", some "E3", 1, none, "EDS", 0, some 9⟩

/-! ### Claims -/

/-- C1: the claim says Assign reads and writes the status within one atomic
conditional update, so that of N concurrent `add_license` calls on one
Available key exactly one observes 200 and the rest 409.  The code instead
issues a plain `SELECT` and then an `UPDATE` conditioned only on
`license_key`: interleaving two requests as read-read-write-write makes both
finish with 200 on the same initially available key (and the second silently
overwrites the first one's `entity_id`). -/
theorem c1_interleaved_adds_both_succeed :
    runSched (some "ISS") 10 11 ⟨"K1", "P1", "E1"⟩ ⟨"K1", "P1", "E2"⟩
        [true, false, true, false] ⟨[recAvail], .preSelect, .preSelect⟩
      = ⟨[⟨"K1", "P1", "assigned", some "E2", 1, none, "EDS", 0, some 11⟩],
         .finished ⟨200, .licenseCluster [⟨"K1", "K1", "P1", some "ISS", none, 1, "EDS"⟩]⟩,
         .finished ⟨200, .licenseCluster [⟨"K1", "K1", "P1", some "ISS", none, 1, "EDS"⟩]⟩⟩ := by
  rfl

/-- C7: an `add_license` request with any of the three fields `key`, `aud`,
`entityId` missing is answered 400 with the store untouched, no matter
whether the database is even reachable (`dbFault` arbitrary): the validation
runs before any storage call. -/
theorem c7_add_missing_field_400 (issuerId : Option String) (req : AddRequest)
    (dbFault : Bool) (now : Int) (store : List LicenseRecord)
    (h : req.key = none ∨ req.aud = none ∨ req.entityId = none) :
    add_license issuerId (some req) dbFault now store
      = (⟨400, .descr "Request is missing key data or entity ID."⟩, store) := by
  unfold add_license
  have hcond : (optTruthy req.key && optTruthy req.aud && optTruthy req.entityId) = false := by
    rcases h with h | h | h <;> simp [h, optTruthy]
  simp [hcond]

theorem c7_witness :
    add_license (some "ISS") (some ⟨some (.jstr "K1"), none, some (.jstr "E1")⟩)
        true 0 [recAvail]
      = (⟨400, .descr "Request is missing key data or entity ID."⟩, [recAvail]) :=
  c7_add_missing_field_400 (some "ISS") ⟨some (.jstr "K1"), none, some (.jstr "E1")⟩
    true 0 [recAvail] (Or.inr (Or.inl rfl))

/-- C9: a field that is present but falsy in Python (empty string `key`,
`aud` or `entityId`, or `entityId` equal to `0` or `false`) is rejected
exactly like a missing one: 400, before any storage access (`dbFault`
arbitrary), store unchanged. -/
theorem c9_add_falsy_field_400 (issuerId : Option String) (req : AddRequest)
    (dbFault : Bool) (now : Int) (store : List LicenseRecord) (v : JVal)
    (hv : v.truthy = false)
    (h : req.key = some v ∨ req.aud = some v ∨ req.entityId = some v) :
    add_license issuerId (some req) dbFault now store
      = (⟨400, .descr "Request is missing key data or entity ID."⟩, store) := by
  unfold add_license
  have hcond : (optTruthy req.key && optTruthy req.aud && optTruthy req.entityId) = false := by
    rcases h with h | h | h <;> simp [h, optTruthy, hv]
  simp [hcond]

theorem c9_witness :
    add_license (some "ISS") (some ⟨some (.jstr "K1"), some (.jstr "P1"), some (.jnum 0)⟩)
        true 0 [recAvail]
      = (⟨400, .descr "Request is missing key data or entity ID."⟩, [recAvail]) :=
  c9_add_falsy_field_400 (some "ISS") ⟨some (.jstr "K1"), some (.jstr "P1"), some (.jnum 0)⟩
    true 0 [recAvail] (.jnum 0) (by decide) (Or.inr (Or.inr rfl))

/-- C10: `remove_license` silently skips every entry without a truthy
`key`: a request whose `licenses` list is non-empty but all of whose entries
lack a usable key is answered 200 with an empty body and leaves the store
exactly as it was. -/
theorem c10_remove_keyless_noop (data : RemoveRequest) (store : List LicenseRecord)
    (hne : data.licenses ≠ [])
    (hkeys : ∀ e ∈ data.licenses, ∀ v, e.key = some v → v.truthy = false) :
    remove_license (some data) false store = (⟨200, .empty⟩, store) := by
  have hisEmpty : data.licenses.isEmpty = false := by
    cases hl : data.licenses with
    | nil => exact absurd hl hne
    | cons x xs => rfl
  unfold remove_license
  simp only [hisEmpty, Bool.false_eq_true, if_false]
  rw [foldl_removeStep]
  refine congrArg _ ?_
  refine map_eq_self_of_mem fun r hr => ?_
  unfold elemRelease
  have hany : (data.licenses.any fun e => entryHits e r) = false := by
    rw [List.any_eq_false]
    intro e he
    cases hk : e.key with
    | none => simp [entryHits, hk]
    | some v => simp [entryHits, hk, hkeys e he v hk]
  rw [hany]
  simp

theorem c10_witness :
    remove_license (some ⟨[⟨some .jnull⟩]⟩) false [recAssigned]
      = (⟨200, .empty⟩, [recAssigned]) :=
  c10_remove_keyless_noop ⟨[⟨some .jnull⟩]⟩ [recAssigned] (by decide)
    (by
      intro e he v hv
      rw [List.mem_singleton] at he
      subst he
      cases hv
      rfl)

/-- C8: with all three fields present, `add_license` maps both failure
causes — no row for `(key, aud)`, and a row whose status is not
`available` — to a 409 with a `description` body (in particular never a
404), leaving the store unchanged. -/
theorem c8_add_conflict_409 (issuerId : Option String) (k a e : String)
    (now : Int) (store : List LicenseRecord)
    (hk : k ≠ "") (ha : a ≠ "") (he : e ≠ "")
    (h : ∀ r ∈ store, r.license_key = k → r.product_id = a → r.status ≠ "available") :
    (add_license issuerId (some ⟨some (.jstr k), some (.jstr a), some (.jstr e)⟩)
        false now store).1.status = 409 ∧
    (∃ s, (add_license issuerId (some ⟨some (.jstr k), some (.jstr a), some (.jstr e)⟩)
        false now store).1.body = .descr s) ∧
    (add_license issuerId (some ⟨some (.jstr k), some (.jstr a), some (.jstr e)⟩)
        false now store).1.status ≠ 404 ∧
    (add_license issuerId (some ⟨some (.jstr k), some (.jstr a), some (.jstr e)⟩)
        false now store).2 = store := by
  rw [add_license_strs issuerId k a e now store hk ha he]
  cases hfind : store.find? (matchesKeyProd k a) with
  | none =>
    dsimp only
    exact ⟨rfl, ⟨_, rfl⟩, by decide, rfl⟩
  | some r0 =>
    have hm := matches_iff.mp (List.find?_some hfind)
    have hst : r0.status ≠ "available" :=
      h r0 (List.mem_of_find?_eq_some hfind) hm.1 hm.2
    have hcond : (r0.status != "available") = true := by simp [hst]
    dsimp only
    rw [hcond]
    exact ⟨rfl, ⟨_, rfl⟩, by show (409 : Nat) ≠ 404; decide, rfl⟩

theorem c8_witness :
    (add_license (some "ISS") (some ⟨some (.jstr "K3"), some (.jstr "P3"), some (.jstr "E9")⟩)
        false 0 [recAssigned]).1.status = 409 :=
  (c8_add_conflict_409 (some "ISS") "K3" "P3" "E9" 0 [recAssigned]
      (by decide) (by decide) (by decide)
      (by
        intro r hr h1 h2
        rw [List.mem_singleton] at hr
        subst hr
        decide)).1

/-- `remove_license` with a non-empty list and a reachable database: 200,
empty body, and the update loop applied row-wise. -/
theorem remove_license_nonempty (data : RemoveRequest) (store : List LicenseRecord)
    (h : data.licenses.isEmpty = false) :
    remove_license (some data) false store
      = (⟨200, .empty⟩, store.map (elemRelease data.licenses)) := by
  unfold remove_license
  simp only [h, Bool.false_eq_true, if_false]
  rw [foldl_removeStep]

theorem releaseRec_eq_self {r : LicenseRecord} (h1 : r.status = "available")
    (h2 : r.entity_id = none) (h3 : r.date_assigned = none) : releaseRec r = r := by
  cases r
  simp only [releaseRec] at *
  simp_all

/-- C5: release is idempotent — with a non-empty `licenses` list, running
`remove_license` twice in a row gives the same 200-empty response both times
and the same store after one run as after two; and when every targeted row
is already `available` with `entity_id` and `date_assigned` cleared, the
single run already leaves the store byte-for-byte unchanged (a silent
no-op, not an error). -/
theorem c5_release_idempotent (data : RemoveRequest) (store : List LicenseRecord)
    (hne : data.licenses ≠ []) :
    (remove_license (some data) false store).1 = ⟨200, .empty⟩ ∧
    remove_license (some data) false (remove_license (some data) false store).2
      = (⟨200, .empty⟩, (remove_license (some data) false store).2) ∧
    ((∀ r ∈ store, (∃ e ∈ data.licenses, entryHits e r = true) →
        r.status = "available" ∧ r.entity_id = none ∧ r.date_assigned = none) →
      (remove_license (some data) false store).2 = store) := by
  have hisEmpty : data.licenses.isEmpty = false := by
    cases hl : data.licenses with
    | nil => exact absurd hl hne
    | cons x xs => rfl
  refine ⟨?_, ?_, ?_⟩
  · rw [remove_license_nonempty data store hisEmpty]
  · rw [remove_license_nonempty data store hisEmpty]
    rw [remove_license_nonempty data _ hisEmpty]
    have hmm : (store.map (elemRelease data.licenses)).map (elemRelease data.licenses)
        = store.map (elemRelease data.licenses) := by
      rw [List.map_map]
      exact List.map_congr_left fun r _ => elemRelease_idem data.licenses r
    rw [hmm]
  · intro hrel
    rw [remove_license_nonempty data store hisEmpty]
    refine map_eq_self_of_mem fun r hr => ?_
    unfold elemRelease
    cases hany : data.licenses.any fun e => entryHits e r with
    | false => simp
    | true =>
      rw [if_pos rfl]
      obtain ⟨e, he, hhit⟩ := List.any_eq_true.mp hany
      obtain ⟨h1, h2, h3⟩ := hrel r hr ⟨e, he, hhit⟩
      exact releaseRec_eq_self h1 h2 h3

theorem c5_witness :
    (remove_license (some ⟨[⟨some (.jstr "K3")⟩]⟩) false [recAssigned]).1 = ⟨200, .empty⟩ ∧
    remove_license (some ⟨[⟨some (.jstr "K3")⟩]⟩) false
        (remove_license (some ⟨[⟨some (.jstr "K3")⟩]⟩) false [recAssigned]).2
      = (⟨200, .empty⟩,
         (remove_license (some ⟨[⟨some (.jstr "K3")⟩]⟩) false [recAssigned]).2) :=
  ⟨(c5_release_idempotent ⟨[⟨some (.jstr "K3")⟩]⟩ [recAssigned] (by decide)).1,
   (c5_release_idempotent ⟨[⟨some (.jstr "K3")⟩]⟩ [recAssigned] (by decide)).2.1⟩

/-- C4: assigning an available record and then releasing the same key leaves
the record `available` with `entity_id` cleared and all business fields
(`product_id`, `numberOfSeats`, `exp`, `editions` — and `date_created`)
byte-for-byte at their pre-assignment values, and a following
`get_license` returns 200 with the License object built from exactly those
pre-assignment fields. -/
theorem c4_assign_release_lookup (issuerId : Option String) (k a e : String)
    (now : Int) (store : List LicenseRecord) (r0 : LicenseRecord)
    (hk : k ≠ "") (ha : a ≠ "") (he : e ≠ "")
    (hfind : store.find? (matchesKeyProd k a) = some r0)
    (hstat : r0.status = "available") :
    (remove_license (some ⟨[⟨some (.jstr k)⟩]⟩) false
        (add_license issuerId (some ⟨some (.jstr k), some (.jstr a), some (.jstr e)⟩)
          false now store).2).2.find? (matchesKeyProd k a)
      = some { r0 with status := "available", entity_id := none, date_assigned := none } ∧
    get_license issuerId (some k) (some a) false
        (remove_license (some ⟨[⟨some (.jstr k)⟩]⟩) false
          (add_license issuerId (some ⟨some (.jstr k), some (.jstr a), some (.jstr e)⟩)
            false now store).2).2
      = .ok ⟨200, .licenseObj ⟨r0.license_key, r0.license_key, r0.product_id, issuerId,
          r0.exp, r0.numberOfSeats, r0.editions⟩⟩ := by
  have hkey0 : r0.license_key = k := (matches_iff.mp (List.find?_some hfind)).1
  have hcond : (r0.status != "available") = false := by simp [hstat]
  have hbeq : (r0.license_key == k) = true := by
    rw [hkey0]
    exact beq_self_eq_true k
  have hadd : (add_license issuerId (some ⟨some (.jstr k), some (.jstr a), some (.jstr e)⟩)
      false now store).2
      = store.map fun r => if r.license_key == k then assignRec e now r else r := by
    rw [add_license_strs issuerId k a e now store hk ha he, hfind]
    dsimp only
    rw [hcond]
    rfl
  rw [hadd, remove_license_nonempty ⟨[⟨some (.jstr k)⟩]⟩ _ rfl]
  have hfind2 : (((store.map fun r => if r.license_key == k then assignRec e now r else r).map
        (elemRelease [⟨some (.jstr k)⟩])).find? (matchesKeyProd k a))
      = some { r0 with status := "available", entity_id := none, date_assigned := none } := by
    rw [find?_map_of_pred _ _ (matches_elemRelease k a [⟨some (.jstr k)⟩]),
      find?_map_of_pred _ _ (matches_ite_assign k a e now), hfind]
    have hone : (if r0.license_key == k then assignRec e now r0 else r0)
        = assignRec e now r0 := by
      rw [hbeq]
      rfl
    have htwo : elemRelease [⟨some (.jstr k)⟩] (assignRec e now r0)
        = releaseRec (assignRec e now r0) := by
      unfold elemRelease
      have : ([⟨some (.jstr k)⟩] : List RemoveEntry).any
          (fun en => entryHits en (assignRec e now r0)) = true := by
        simp [entryHits, JVal.render, jstr_truthy hk, assignRec, hkey0]
      rw [this]
      rfl
    simp only [Option.map_some', hone, htwo]
    rfl
  refine ⟨hfind2, ?_⟩
  unfold get_license
  have hks : strTruthy (some k) = true := strTruthy_some hk
  have has : strTruthy (some a) = true := strTruthy_some ha
  simp only [hks, has, Bool.and_self, Bool.not_true, Bool.false_eq_true, if_false,
    Option.getD_some]
  rw [hfind2]
  rfl

theorem c4_witness :
    (remove_license (some ⟨[⟨some (.jstr "K2")⟩]⟩) false
        (add_license (some "ISS") (some ⟨some (.jstr "K2"), some (.jstr "P2"),
            some (.jstr "E7")⟩) false 5 [recAvail2]).2).2.find? (matchesKeyProd "K2" "P2")
      = some { recAvail2 with status := "available", entity_id := none, date_assigned := none } :=
  (c4_assign_release_lookup (some "ISS") "K2" "P2" "E7" 5 [recAvail2] recAvail2
      (by decide) (by decide) (by decide) (by decide) rfl).1

/-- C2: with `key`, `aud`, `entityId` all present (non-empty strings) and
the schema's uniqueness of `license_key`, `add_license` answers 200 exactly
when a row for `(key, aud)` exists with status `available`; and on success
it replaces precisely that row by its assigned version (`status='assigned'`,
`entity_id` set to the requested entity, `date_assigned = now`), leaves
every other row untouched, and returns a LicenseCluster wrapping exactly
the one License object of the post-update row. -/
theorem c2_add_assign_correct (issuerId : Option String) (k a e : String)
    (now : Int) (store : List LicenseRecord)
    (hk : k ≠ "") (ha : a ≠ "") (he : e ≠ "")
    (hu : (store.map LicenseRecord.license_key).Nodup) :
    ((add_license issuerId (some ⟨some (.jstr k), some (.jstr a), some (.jstr e)⟩)
        false now store).1.status = 200
      ↔ ∃ r ∈ store, r.license_key = k ∧ r.product_id = a ∧ r.status = "available") ∧
    (∀ r0, store.find? (matchesKeyProd k a) = some r0 → r0.status = "available" →
      add_license issuerId (some ⟨some (.jstr k), some (.jstr a), some (.jstr e)⟩)
          false now store
        = (⟨200, .licenseCluster [formatLicense issuerId (assignRec e now r0)]⟩,
           store.map fun r => if r.license_key == k then assignRec e now r else r) ∧
      (store.map fun r => if r.license_key == k then assignRec e now r else r).find?
          (matchesKeyProd k a) = some (assignRec e now r0)) := by
  rw [add_license_strs issuerId k a e now store hk ha he]
  cases hfind : store.find? (matchesKeyProd k a) with
  | none =>
    have hnone := List.find?_eq_none.mp hfind
    constructor
    · dsimp only
      constructor
      · intro h
        exact absurd (show (409 : Nat) = 200 from h) (by decide)
      · rintro ⟨r, hr, hkey, hprod, hst⟩
        exact absurd (matches_iff.mpr ⟨hkey, hprod⟩) (hnone r hr)
    · intro r1 h1
      exact Option.noConfusion h1
  | some r0 =>
    have hm := matches_iff.mp (List.find?_some hfind)
    have hmem := List.mem_of_find?_eq_some hfind
    by_cases hst : r0.status = "available"
    · have hcond : (r0.status != "available") = false := by simp [hst]
      dsimp only
      rw [hcond]
      constructor
      · constructor
        · intro _
          exact ⟨r0, hmem, hm.1, hm.2, hst⟩
        · intro _
          rfl
      · intro r1 h1 hs1
        have hr01 : r0 = r1 := by
          injection h1 with h2
        subst hr01
        constructor
        · have hfmt : formatLicense issuerId (assignRec e now r0)
              = ⟨k, k, a, issuerId, r0.exp, r0.numberOfSeats, r0.editions⟩ := by
            unfold formatLicense assignRec
            rw [hm.1, hm.2]
          rw [hfmt]
          rfl
        · rw [find?_map_of_pred _ _ (matches_ite_assign k a e now), hfind]
          have hbeq : (r0.license_key == k) = true := by
            rw [hm.1]
            exact beq_self_eq_true k
          simp only [Option.map_some', hbeq, if_true]
    · have hcond : (r0.status != "available") = true := by simp [hst]
      dsimp only
      rw [hcond]
      constructor
      · constructor
        · intro h
          exact absurd (show (409 : Nat) = 200 from h) (by decide)
        · rintro ⟨r, hr, hkeyr, hprodr, hstr⟩
          have heq : r = r0 := key_inj hu hr hmem (hkeyr.trans hm.1.symm)
          rw [heq] at hstr
          exact absurd hstr hst
      · intro r1 h1 hs1
        have hr01 : r0 = r1 := by
          injection h1 with h2
        subst hr01
        exact absurd hs1 hst

theorem c2_witness :
    (add_license (some "ISS") (some ⟨some (.jstr "K1"), some (.jstr "P1"), some (.jstr "E9")⟩)
        false 42 [recAvail]).1.status = 200 :=
  (c2_add_assign_correct (some "ISS") "K1" "P1" "E9" 42 [recAvail]
      (by decide) (by decide) (by decide) (by decide)).1.mpr
    ⟨recAvail, List.mem_singleton_self recAvail, rfl, rfl, rfl⟩

/-- C6: in every store reachable from the schema defaults (`status =
'available'`, `entity_id = NULL`) through the endpoints, every row satisfies
`entity_id` non-null iff `status = 'assigned'`: the assign update writes
both fields in the one statement, and the release update clears both in the
one statement. -/
theorem c6_entity_iff_assigned (store : List LicenseRecord) (h : Reachable store) :
    EntityInv store := by
  induction h with
  | init store h0 =>
    intro r hr
    obtain ⟨h1, h2⟩ := h0 r hr
    rw [h1, h2]
    simp
  | add issuerId data dbFault now store h0 ih => exact entityInv_add _ _ _ _ _ ih
  | remove data dbFault store h0 ih => exact entityInv_remove _ _ _ ih

theorem c6_witness :
    EntityInv (add_license (some "ISS")
        (some ⟨some (.jstr "K1"), some (.jstr "P1"), some (.jstr "E1")⟩)
        false 7 [recAvail]).2 :=
  c6_entity_iff_assigned _
    (Reachable.add (some "ISS") _ false 7 [recAvail]
      (Reachable.init [recAvail] (by decide)))

/-- C3 (amended): every failure response the three handlers themselves
construct has a `description` body; `add_license` and `remove_license` catch
a raised storage exception and answer 500 with the generic message, the
store untouched.  (`get_license` constructs no response at all on a storage
exception — see the counterexample.) -/
theorem c3_failure_bodies (issuerId : Option String) :
    (∀ key aud dbFault store r, get_license issuerId key aud dbFault store = .ok r →
      400 ≤ r.status → ∃ s, r.body = Body.descr s) ∧
    (∀ data dbFault now store r st2,
      add_license issuerId data dbFault now store = (r, st2) →
      400 ≤ r.status → ∃ s, r.body = Body.descr s) ∧
    (∀ data dbFault store r st2,
      remove_license data dbFault store = (r, st2) →
      400 ≤ r.status → ∃ s, r.body = Body.descr s) ∧
    (∀ req now store,
      (optTruthy req.key && optTruthy req.aud && optTruthy req.entityId) = true →
      add_license issuerId (some req) true now store
        = (⟨500, Body.descr "An internal server error occurred."⟩, store)) ∧
    (∀ req store, req.licenses.isEmpty = false →
      remove_license (some req) true store
        = (⟨500, Body.descr "An internal server error occurred."⟩, store)) := by
  refine ⟨?_, ?_, ?_, ?_, ?_⟩
  · intro key aud dbFault store r h hs
    unfold get_license at h
    split at h
    · cases h
      exact ⟨_, rfl⟩
    · split at h
      · exact Except.noConfusion h
      · split at h
        · cases h
          exact absurd (show (400 : Nat) ≤ 200 from hs) (by decide)
        · cases h
          exact ⟨_, rfl⟩
  · intro data dbFault now store r st2 h hs
    unfold add_license at h
    cases data with
    | none =>
      cases h
      exact ⟨_, rfl⟩
    | some req =>
      dsimp only at h
      split at h
      · cases h
        exact ⟨_, rfl⟩
      · split at h
        · cases h
          exact ⟨_, rfl⟩
        · split at h
          · cases h
            exact ⟨_, rfl⟩
          · split at h
            · cases h
              exact ⟨_, rfl⟩
            · cases h
              exact absurd (show (400 : Nat) ≤ 200 from hs) (by decide)
  · intro data dbFault store r st2 h hs
    unfold remove_license at h
    cases data with
    | none =>
      cases h
      exact ⟨_, rfl⟩
    | some req =>
      dsimp only at h
      split at h
      · cases h
        exact ⟨_, rfl⟩
      · split at h
        · cases h
          exact ⟨_, rfl⟩
        · cases h
          exact absurd (show (400 : Nat) ≤ 200 from hs) (by decide)
  · intro req now store hcond
    unfold add_license
    simp [hcond]
  · intro req store hne
    unfold remove_license
    simp [hne]

theorem c3_witness :
    add_license (some "ISS") (some ⟨some (.jstr "K1"), some (.jstr "P1"), some (.jstr "E1")⟩)
        true 0 [recAvail]
      = (⟨500, Body.descr "An internal server error occurred."⟩, [recAvail]) :=
  (c3_failure_bodies (some "ISS")).2.2.2.1
    ⟨some (.jstr "K1"), some (.jstr "P1"), some (.jstr "E1")⟩ 0 [recAvail] (by decide)

/-- C3 counterexample: the claim says a storage failure in any of the three
authenticated handlers produces a 500 response with the
`{"description": ...}` body.  `get_license` has no `try/except`, so a raised
database exception escapes the handler — it produces no response of its own
at all (Flask's framework-level error page, not the generic JSON body, is
what the client sees). -/
theorem c3_counterexample :
    get_license (some "ISS") (some "K1") (some "P1") true [] = .error () := rfl

end CloudZoo
